import Mathlib

/-!
Verification of the provider-backed, staleness-validated file-stream reader
of `chrome/browser/chromeos/file_system_provider/fileapi/file_stream_reader`.

The repository ships only the behavioral test suite
(`file_stream_reader_unittest.cc`); the reader implementation itself is not
part of the sources. Each definition below is therefore modelled from the
natural-language specification (its section is cited in the doc comment) and
checked against the behaviors the test suite fixes.
-/

namespace StreamReaderModel

/-- Modelled from the spec: `base::Time` values, missing with
`file_stream_reader.cc`. A time is a non-negative tick count; the value `0`
is the null / unset time (`base::Time()`), which disables validation. -/
abbrev Time := Nat

/-- Modelled from the spec (section 3): a provided file as the backend sees
it, missing with `fake_provided_file_system.cc`: its byte content and its
modification time. -/
structure File where
  content : List Nat
  modificationTime : Time
deriving DecidableEq, Repr

/-- Modelled from the spec (section 3, FileMetadata): `size` and
`modification_time`, as fetched once per reader, missing with
`file_stream_reader.cc`. -/
structure FileMetadata where
  size : Nat
  modificationTime : Time
deriving DecidableEq, Repr

/-- Modelled from the spec (section 2): the provider capability, missing
with `fake_provided_file_system.cc` — a pluggable backend mapping each path
to the file it serves, if any. -/
def Provider := String → Option File

/-- Modelled from the spec (section 6): `GetMetadata(path)` — `none` means
the path does not resolve (`NotFoundError`). -/
def GetMetadata (p : Provider) (path : String) : Option FileMetadata :=
  match p path with
  | none => none
  | some f => some ⟨f.content.length, f.modificationTime⟩

/-- Modelled from the spec (section 6): `ReadRange(path, offset, length)` —
the bytes of the file in `[offset, offset+length)`, possibly fewer than
`length` at end-of-data. -/
def ReadRange (f : File) (offset length : Nat) : List Nat :=
  (f.content.drop offset).take length

/-- Modelled from the spec (section 4.1): the classification a
MetadataValidator run produces. `ok` carries the fetched metadata. -/
inductive VOutcome where
  | ok (meta : FileMetadata)
  | notFound
  | changed
deriving DecidableEq, Repr

/-- Modelled from the spec (section 4.1, MetadataValidator), missing with
`file_stream_reader.cc`: fetch metadata; an unresolvable path is `NotFound`;
a set (non-zero) expectation differing from the fetched modification time by
any amount is `Changed` (exact equality, not ordering); an unset expectation
always passes. -/
def Validate (p : Provider) (path : String) (expected : Time) : VOutcome :=
  match GetMetadata p path with
  | none => .notFound
  | some meta =>
      if expected ≠ (0 : Time) ∧ expected ≠ meta.modificationTime then .changed
      else .ok meta

/-- Modelled from the spec (section 7): the error taxonomy — `NotFound`,
`Changed`, and the opaque passthrough provider error. -/
inductive RError where
  | notFound
  | changed
  | providerError
deriving DecidableEq, Repr

/-- Modelled from the spec (section 3, StreamReader), missing with
`file_stream_reader.cc`: one path, a mutable cursor, an optional expected
modification time (`0` = unset), and the once-per-lifetime validation
result (`none` until the first `Read`/`GetLength` runs the validator). -/
structure StreamReader where
  path : String
  cursor : Nat
  expectedModificationTime : Time
  validation : Option VOutcome
deriving DecidableEq, Repr

/-- Modelled from the spec (section 4.3): reader construction — bound to one
path, one initial offset and one expected modification time, not yet
validated. -/
def StreamReader.mk0 (path : String) (offset : Nat) (expected : Time) :
    StreamReader :=
  ⟨path, offset, expected, none⟩

/-- Modelled from the spec (sections 4.1 and 4.3): run the validator on the
first operation only; afterwards the stored outcome is reused verbatim
(`Changed` / `NotFound` are terminal, the reader never re-checks). -/
def validateOnce (p : Provider) (r : StreamReader) : StreamReader × VOutcome :=
  match r.validation with
  | some v => (r, v)
  | none =>
      let v := Validate p r.path r.expectedModificationTime
      ({ r with validation := some v }, v)

/-- Modelled from the spec (section 4.2): the clamp —
`effective_length = max(0, min(requested_length, size - cursor))`,
computed in signed arithmetic and hence never negative. -/
def effectiveLength (requested size cursor : Nat) : Nat :=
  (max 0 (min (requested : Int) ((size : Int) - (cursor : Int)))).toNat

/-- Modelled from the spec (section 4.2, ChunkDispatcher): repeat
`ReadRange` calls advancing a local offset until `remaining` bytes are
copied or the provider signals end-of-data (an empty chunk), appending each
chunk to the caller's buffer in request order. -/
def fillLoop (f : File) (offset remaining : Nat) (acc : List Nat) : List Nat :=
  if remaining = 0 then acc
  else
    let chunk := ReadRange f offset remaining
    if hc : chunk.length = 0 then acc
    else
      fillLoop f (offset + chunk.length) (remaining - chunk.length)
        (acc ++ chunk)
termination_by remaining
decreasing_by
  have hle : ((f.content.drop offset).take remaining).length ≤ remaining :=
    List.length_take_le remaining (f.content.drop offset)
  simp only [chunk, ReadRange] at hc ⊢
  omega

/-- Modelled from the spec (section 4.2): `FillFrom` — clamp the request,
return immediately with no bytes when the effective length is `0` (without
contacting the provider), otherwise run the range-read loop; a path that no
longer resolves mid-read is a passthrough provider failure. -/
def FillFrom (p : Provider) (path : String) (cursor requested size : Nat) :
    Except RError (List Nat) :=
  let eff := effectiveLength requested size cursor
  if eff = 0 then .ok []
  else
    match p path with
    | none => .error .providerError
    | some f => .ok (fillLoop f cursor eff [])

/-- Modelled from the spec (section 4.3, steps 2-4 of `Read`): validate on
first use, fail terminally on `NotFound`/`Changed`, otherwise dispatch the
chunk read against the validated size and advance the cursor by the bytes
actually copied. Returns the updated reader and the operation's result. -/
def readOp (p : Provider) (r : StreamReader) (maxLength : Nat) :
    StreamReader × Except RError (List Nat) :=
  let (r1, v) := validateOnce p r
  match v with
  | .notFound => (r1, .error .notFound)
  | .changed => (r1, .error .changed)
  | .ok meta =>
      match FillFrom p r1.path r1.cursor maxLength meta.size with
      | .error e => (r1, .error e)
      | .ok bytes => ({ r1 with cursor := r1.cursor + bytes.length }, .ok bytes)

/-- Modelled from the spec (section 4.3, `GetLength`): same validation path
as `Read`, but deliver the validated size on success instead of performing
any chunk read; the cursor is untouched. -/
def getLengthOp (p : Provider) (r : StreamReader) :
    StreamReader × Except RError Nat :=
  let (r1, v) := validateOnce p r
  match v with
  | .notFound => (r1, .error .notFound)
  | .changed => (r1, .error .changed)
  | .ok meta => (r1, .ok meta.size)

/-- Modelled from the spec: `net::ERR_IO_PENDING`, the immediate
"accepted/pending" indicator (section 4.3, step 5). -/
def ERR_IO_PENDING : Int := -1

/-- Modelled from the spec: `net::ERR_FILE_NOT_FOUND`, the wire value of the
`NotFound` error kind. -/
def ERR_FILE_NOT_FOUND : Int := -6

/-- Modelled from the spec: `net::ERR_FAILED`, the opaque passthrough
provider error (section 7). -/
def ERR_FAILED : Int := -2

/-- Modelled from the spec: `net::ERR_UPLOAD_FILE_CHANGED`, the wire value
of the `Changed` error kind. -/
def ERR_UPLOAD_FILE_CHANGED : Int := -404

/-- Modelled from the spec (section 7): each abstract error kind as the
signed code delivered to the callback. -/
def errorCode : RError → Int
  | .notFound => ERR_FILE_NOT_FOUND
  | .changed => ERR_UPLOAD_FILE_CHANGED
  | .providerError => ERR_FAILED

/-- Modelled from the spec (section 3, Result): a completed `Read` delivers
its byte count on success, an error code on failure, in one signed channel. -/
def readResultCode : Except RError (List Nat) → Int
  | .ok bytes => bytes.length
  | .error e => errorCode e

/-- Modelled from the spec (section 3, Result): a completed `GetLength`
delivers the size on success, an error code on failure. -/
def lengthResultCode : Except RError Nat → Int
  | .ok n => n
  | .error e => errorCode e

/-- Modelled from the spec (section 4.3, step 5): the synchronous face of
`Read` — return `ERR_IO_PENDING` immediately and queue exactly one deferred
completion carrying the operation's result; the callback fires only when the
event loop later drains the queue, never in the call stack of `Read`. -/
def readCall (p : Provider) (r : StreamReader) (maxLength : Nat) :
    Int × StreamReader × List Int :=
  let (r1, res) := readOp p r maxLength
  (ERR_IO_PENDING, r1, [readResultCode res])

/-- Modelled from the spec (section 4.3, step 5): the synchronous face of
`GetLength`, same single-deferred-completion contract as `readCall`. -/
def getLengthCall (p : Provider) (r : StreamReader) :
    Int × StreamReader × List Int :=
  let (r1, res) := getLengthOp p r
  (ERR_IO_PENDING, r1, [lengthResultCode res])

/-- A provider serving exactly one file at one path. Mirrors the fake
provided file system the test fixture mounts. -/
def singleFile (path : String) (f : File) : Provider :=
  fun q => if q = path then some f else none

/-- Modelled from the spec (section 8) and the `Read_InChunks` test: issue
`n` sequential `Read(len)` calls on one reader, threading the reader state
and collecting each call's result in order. -/
def readSeq (p : Provider) (len : Nat) :
    Nat → StreamReader → StreamReader × List (Except RError (List Nat))
  | 0, r => (r, [])
  | Nat.succ n, r =>
      let (r1, res) := readOp p r len
      let (r2, rest) := readSeq p len n r1
      (r2, res :: rest)

/-! ## General lemmas about the model -/

theorem fillLoop_spec (f : File) : ∀ remaining offset acc,
    fillLoop f offset remaining acc
      = acc ++ (f.content.drop offset).take remaining := by
  intro remaining
  induction remaining using Nat.strong_induction_on with
  | _ remaining ih =>
    intro offset acc
    rw [fillLoop]
    by_cases h0 : remaining = 0
    · simp [h0]
    · simp only [h0, if_false]
      set d := f.content.drop offset with hd
      by_cases hc : (ReadRange f offset remaining).length = 0
      · simp only [ReadRange, ← hd] at hc
        have hdl : d.length = 0 := by
          have := List.length_take remaining d
          omega
        have hnil : d = [] := List.length_eq_zero.mp hdl
        simp [ReadRange, ← hd, hc, hnil]
      · simp only [ReadRange, ← hd] at hc ⊢
        rw [dif_neg hc]
        have hlen : (d.take remaining).length = min remaining d.length :=
          List.length_take _ _
        have hrec := ih (remaining - (d.take remaining).length)
          (by omega) (offset + (d.take remaining).length) (acc ++ d.take remaining)
        rw [hrec]
        have hdrop : f.content.drop (offset + (d.take remaining).length)
            = d.drop (d.take remaining).length := by
          rw [hd, List.drop_drop]
        rw [hdrop, List.append_assoc]
        congr 1
        have hX : (d.drop (d.take remaining).length).take
            (remaining - (d.take remaining).length) = [] := by
          rcases Nat.le_total remaining d.length with hle | hle
          · have h1 : (d.take remaining).length = remaining := by omega
            simp [h1]
          · have h1 : (d.take remaining).length = d.length := by omega
            simp [h1]
        rw [hX]
        simp

theorem effectiveLength_eq (req size cur : Nat) :
    effectiveLength req size cur = min req (size - cur) := by
  unfold effectiveLength
  omega

theorem FillFrom_resolves (p : Provider) (path : String) (cursor req size : Nat)
    (f : File) (hp : p path = some f) :
    FillFrom p path cursor req size
      = .ok ((f.content.drop cursor).take (min req (size - cursor))) := by
  unfold FillFrom
  rw [effectiveLength_eq]
  by_cases h0 : min req (size - cursor) = 0
  · simp [h0]
  · simp only [h0, if_false, hp]
    rw [fillLoop_spec]
    simp

theorem FillFrom_error_kind (p : Provider) (path : String) (cursor req size : Nat)
    (e : RError) (h : FillFrom p path cursor req size = .error e) :
    e = .providerError := by
  unfold FillFrom at h
  by_cases h0 : effectiveLength req size cursor = 0
  · simp [h0] at h
  · simp only [h0, if_false] at h
    cases hp : p path with
    | none => rw [hp] at h; simpa using h.symm
    | some f => rw [hp] at h; simp at h

theorem validateOnce_of_some (p : Provider) (r : StreamReader) (v : VOutcome)
    (h : r.validation = some v) : validateOnce p r = (r, v) := by
  unfold validateOnce
  rw [h]

theorem validateOnce_of_none (p : Provider) (r : StreamReader)
    (h : r.validation = none) :
    validateOnce p r
      = ({ r with validation := some (Validate p r.path r.expectedModificationTime) },
         Validate p r.path r.expectedModificationTime) := by
  unfold validateOnce
  rw [h]

theorem validateOnce_validation (p : Provider) (r : StreamReader) :
    (validateOnce p r).1.validation = some (validateOnce p r).2 := by
  unfold validateOnce
  cases h : r.validation with
  | some v => simpa using h
  | none => simp

theorem readOp_eq (p : Provider) (r : StreamReader) (len : Nat) :
    readOp p r len =
      match (validateOnce p r).2 with
      | .notFound => ((validateOnce p r).1, .error .notFound)
      | .changed => ((validateOnce p r).1, .error .changed)
      | .ok meta =>
          match FillFrom p (validateOnce p r).1.path (validateOnce p r).1.cursor
              len meta.size with
          | .error e => ((validateOnce p r).1, .error e)
          | .ok bytes =>
              ({ (validateOnce p r).1 with
                  cursor := (validateOnce p r).1.cursor + bytes.length },
               .ok bytes) := by
  rfl

theorem getLengthOp_eq (p : Provider) (r : StreamReader) :
    getLengthOp p r =
      match (validateOnce p r).2 with
      | .notFound => ((validateOnce p r).1, .error .notFound)
      | .changed => ((validateOnce p r).1, .error .changed)
      | .ok meta => ((validateOnce p r).1, .ok meta.size) := by
  rfl

theorem readOp_of_notFound (p : Provider) (r : StreamReader) (len : Nat)
    (h : r.validation = some .notFound) :
    readOp p r len = (r, .error .notFound) := by
  rw [readOp_eq, validateOnce_of_some p r _ h]

theorem readOp_of_changed (p : Provider) (r : StreamReader) (len : Nat)
    (h : r.validation = some .changed) :
    readOp p r len = (r, .error .changed) := by
  rw [readOp_eq, validateOnce_of_some p r _ h]

theorem getLengthOp_of_notFound (p : Provider) (r : StreamReader)
    (h : r.validation = some .notFound) :
    getLengthOp p r = (r, .error .notFound) := by
  rw [getLengthOp_eq, validateOnce_of_some p r _ h]

theorem getLengthOp_of_changed (p : Provider) (r : StreamReader)
    (h : r.validation = some .changed) :
    getLengthOp p r = (r, .error .changed) := by
  rw [getLengthOp_eq, validateOnce_of_some p r _ h]

theorem getLengthOp_of_ok (p : Provider) (r : StreamReader) (meta : FileMetadata)
    (h : r.validation = some (.ok meta)) : getLengthOp p r = (r, .ok meta.size) := by
  rw [getLengthOp_eq, validateOnce_of_some p r _ h]

theorem readOp_of_ok (p : Provider) (r : StreamReader) (len : Nat)
    (meta : FileMetadata) (f : File)
    (h : r.validation = some (.ok meta)) (hp : p r.path = some f) :
    readOp p r len =
      ({ r with cursor := r.cursor +
          ((f.content.drop r.cursor).take (min len (meta.size - r.cursor))).length },
       .ok ((f.content.drop r.cursor).take (min len (meta.size - r.cursor)))) := by
  rw [readOp_eq, validateOnce_of_some p r _ h]
  simp only
  rw [FillFrom_resolves p r.path r.cursor len meta.size f hp]

theorem readOp_validation (p : Provider) (r : StreamReader) (len : Nat) :
    (readOp p r len).1.validation = some (validateOnce p r).2 := by
  have h1 := validateOnce_validation p r
  rcases hvo : validateOnce p r with ⟨r1, v⟩
  rw [hvo] at h1
  simp only at h1
  rw [readOp_eq, hvo]
  cases v with
  | notFound => simpa using h1
  | changed => simpa using h1
  | ok meta =>
      cases hf : FillFrom p r1.path r1.cursor len meta.size with
      | error e => simpa [hf] using h1
      | ok bytes => simpa [hf] using h1

theorem getLengthOp_validation (p : Provider) (r : StreamReader) :
    (getLengthOp p r).1.validation = some (validateOnce p r).2 := by
  have h1 := validateOnce_validation p r
  rcases hvo : validateOnce p r with ⟨r1, v⟩
  rw [hvo] at h1
  simp only at h1
  rw [getLengthOp_eq, hvo]
  cases v with
  | notFound => simpa using h1
  | changed => simpa using h1
  | ok meta => simpa using h1

theorem readOp_notFound_iff (p : Provider) (r : StreamReader) (len : Nat) :
    (readOp p r len).2 = .error .notFound ↔ (validateOnce p r).2 = .notFound := by
  rcases hvo : validateOnce p r with ⟨r1, v⟩
  rw [readOp_eq, hvo]
  cases v with
  | notFound => simp
  | changed => simp
  | ok meta =>
      cases hf : FillFrom p r1.path r1.cursor len meta.size with
      | error e =>
          have := FillFrom_error_kind p r1.path r1.cursor len meta.size e hf
          subst this
          simp [hf]
      | ok bytes => simp [hf]

theorem readOp_changed_iff (p : Provider) (r : StreamReader) (len : Nat) :
    (readOp p r len).2 = .error .changed ↔ (validateOnce p r).2 = .changed := by
  rcases hvo : validateOnce p r with ⟨r1, v⟩
  rw [readOp_eq, hvo]
  cases v with
  | notFound => simp
  | changed => simp
  | ok meta =>
      cases hf : FillFrom p r1.path r1.cursor len meta.size with
      | error e =>
          have := FillFrom_error_kind p r1.path r1.cursor len meta.size e hf
          subst this
          simp [hf]
      | ok bytes => simp [hf]

theorem getLengthOp_notFound_iff (p : Provider) (r : StreamReader) :
    (getLengthOp p r).2 = .error .notFound ↔ (validateOnce p r).2 = .notFound := by
  rcases hvo : validateOnce p r with ⟨r1, v⟩
  rw [getLengthOp_eq, hvo]
  cases v <;> simp

theorem getLengthOp_changed_iff (p : Provider) (r : StreamReader) :
    (getLengthOp p r).2 = .error .changed ↔ (validateOnce p r).2 = .changed := by
  rcases hvo : validateOnce p r with ⟨r1, v⟩
  rw [getLengthOp_eq, hvo]
  cases v <;> simp

theorem validateOnce_fst (p : Provider) (r : StreamReader) :
    (validateOnce p r).1 = { r with validation := some (validateOnce p r).2 } := by
  cases r with
  | mk path cur e val => cases val <;> simp [validateOnce]

theorem validateOnce_idem (p : Provider) (r : StreamReader) :
    validateOnce p (validateOnce p r).1 = validateOnce p r := by
  have h1 := validateOnce_fst p r
  rw [h1, validateOnce_of_some p _ ((validateOnce p r).2) rfl]
  rw [← h1]

theorem getLengthOp_fst (p : Provider) (r : StreamReader) :
    (getLengthOp p r).1 = (validateOnce p r).1 := by
  rw [getLengthOp_eq]
  cases (validateOnce p r).2 <;> simp

theorem readOp_after_validate (p : Provider) (r : StreamReader) (len : Nat) :
    readOp p (validateOnce p r).1 len = readOp p r len := by
  rw [readOp_eq p (validateOnce p r).1 len, readOp_eq p r len, validateOnce_idem]

theorem validateOnce_fresh_match (path : String) (content : List Nat)
    (mt : Time) (o : Nat) (e : Time) (he : e = 0 ∨ e = mt) :
    validateOnce (singleFile path ⟨content, mt⟩) (StreamReader.mk0 path o e)
      = (⟨path, o, e, some (.ok ⟨content.length, mt⟩)⟩,
         .ok ⟨content.length, mt⟩) := by
  rw [validateOnce_of_none _ _ rfl]
  simp only [StreamReader.mk0, Validate, GetMetadata, singleFile, if_pos rfl]
  rcases he with he | he <;> simp [he]

theorem validateOnce_fresh_changed (path : String) (content : List Nat)
    (mt : Time) (o : Nat) (e : Time) (hset : e ≠ 0) (hne : e ≠ mt) :
    validateOnce (singleFile path ⟨content, mt⟩) (StreamReader.mk0 path o e)
      = (⟨path, o, e, some .changed⟩, .changed) := by
  rw [validateOnce_of_none _ _ rfl]
  simp only [StreamReader.mk0, Validate, GetMetadata, singleFile, if_pos rfl]
  simp [hset, hne]

theorem readOp_mk0_slice (path : String) (content : List Nat) (mt : Time)
    (o len : Nat) (ho : o ≤ content.length) :
    (readOp (singleFile path ⟨content, mt⟩) (StreamReader.mk0 path o mt) len).2
        = .ok ((content.drop o).take (min len (content.length - o)))
      ∧ ((content.drop o).take (min len (content.length - o))).length
        = min len (content.length - o) := by
  have hval := validateOnce_fresh_match path content mt o mt (Or.inr rfl)
  have hp : singleFile path ⟨content, mt⟩ path = some ⟨content, mt⟩ := by
    simp [singleFile]
  constructor
  · rw [readOp_eq, hval]
    simp only
    rw [FillFrom_resolves _ _ _ _ _ _ hp]
  · rw [List.length_take, List.length_drop]
    omega

theorem readSeq_ones (path : String) (content : List Nat) (mt e : Time) :
    ∀ n k, k + n ≤ content.length →
      readSeq (singleFile path ⟨content, mt⟩) 1 n
          ⟨path, k, e, some (.ok ⟨content.length, mt⟩)⟩
        = (⟨path, k + n, e, some (.ok ⟨content.length, mt⟩)⟩,
           ((content.drop k).take n).map (fun b => .ok [b])) := by
  intro n
  induction n with
  | zero => intro k hk; simp [readSeq]
  | succ n ih =>
      intro k hk
      have hklt : k < content.length := by omega
      have hp : singleFile path ⟨content, mt⟩ path = some ⟨content, mt⟩ := by
        simp [singleFile]
      have hro := readOp_of_ok (singleFile path ⟨content, mt⟩)
        ⟨path, k, e, some (.ok ⟨content.length, mt⟩)⟩ 1
        ⟨content.length, mt⟩ ⟨content, mt⟩ rfl hp
      have hmin : min 1 (content.length - k) = 1 := by omega
      have hdropk : content.drop k = content[k] :: content.drop (k + 1) :=
        (List.cons_getElem_drop_succ (h := hklt)).symm
      have hbytes : (content.drop k).take (min 1 (content.length - k))
          = [content[k]] := by
        rw [hmin, hdropk]
        rfl
      rw [hbytes] at hro
      simp only at hro
      rw [readSeq]
      rw [hro]
      simp only [List.length_singleton]
      have ihk := ih (k + 1) (by omega)
      rw [ihk]
      simp only
      have hadd : k + 1 + n = k + (n + 1) := by omega
      rw [Prod.mk.injEq]
      refine ⟨by rw [hadd], ?_⟩
      rw [hdropk, List.take_succ_cons, List.map_cons]

/-! ## The claims -/

/-- Claim C1: for every file of size `S` and every reader constructed with
`expected_mtime` equal to the file's true modification time and initial
offset `o ≤ S`, a single `Read(len)` delivers `min(len, S - o)` bytes that
are byte-for-byte the file's content in `[o, o + min(len, S - o))` — in
particular the first `min(len, S)` bytes at offset `0`, and the content
trimmed by 3 characters on each side at offset `3` with `len = L - 6`. -/
theorem read_matching_mtime_delivers_exact_slice
    (path : String) (content : List Nat) (mt : Time) (o len : Nat)
    (ho : o ≤ content.length) :
    (readOp (singleFile path ⟨content, mt⟩) (StreamReader.mk0 path o mt) len).2
        = .ok ((content.drop o).take (min len (content.length - o)))
      ∧ ((content.drop o).take (min len (content.length - o))).length
        = min len (content.length - o) :=
  readOp_mk0_slice path content mt o len ho

/-- Witness for C1: content of length 8 read at offset 3 with `len = 8 - 6`
delivers exactly the two middle bytes, trimming 3 on each side. -/
theorem read_matching_mtime_delivers_exact_slice_witness :
    3 ≤ ([65, 66, 67, 68, 69, 70, 71, 72] : List Nat).length
      ∧ (readOp (singleFile "f" ⟨[65, 66, 67, 68, 69, 70, 71, 72], 7⟩)
          (StreamReader.mk0 "f" 3 7) 2).2 = .ok [68, 69] := by
  refine ⟨by decide, ?_⟩
  have h := read_matching_mtime_delivers_exact_slice "f"
    [65, 66, 67, 68, 69, 70, 71, 72] 7 3 2 (by decide)
  exact h.1.trans (by rfl)

/-- Claim C2: a reader whose `expected_mtime` is set (non-zero) and differs
from the file's actual modification time — in either direction — fails both
`Read` and `GetLength` with `Changed`; the predicate is exact equality (a
matching expectation never yields `Changed`), not an ordering comparison. -/
theorem stale_expectation_fails_changed (path : String) (content : List Nat)
    (mt : Time) (o len : Nat) (e : Time) (hset : e ≠ 0) (hne : e ≠ mt) :
    (readOp (singleFile path ⟨content, mt⟩) (StreamReader.mk0 path o e) len).2
        = .error .changed
      ∧ (getLengthOp (singleFile path ⟨content, mt⟩)
          (StreamReader.mk0 path o e)).2 = .error .changed
      ∧ (readOp (singleFile path ⟨content, mt⟩)
          (StreamReader.mk0 path o mt) len).2 ≠ .error .changed := by
  have hval := validateOnce_fresh_changed path content mt o e hset hne
  refine ⟨?_, ?_, ?_⟩
  · rw [readOp_eq, hval]
  · rw [getLengthOp_eq, hval]
  · rw [ne_eq, readOp_changed_iff,
      validateOnce_fresh_match path content mt o mt (Or.inr rfl)]
    simp

/-- Witness for C2: with actual modification time 5, an expectation of 9
(later) and of 3 (earlier) both fail with `Changed`. -/
theorem stale_expectation_fails_changed_witness :
    (9 : Time) ≠ 0 ∧ (9 : Time) ≠ 5 ∧ (3 : Time) ≠ 0 ∧ (3 : Time) ≠ 5
      ∧ (readOp (singleFile "a" ⟨[1, 2], 5⟩) (StreamReader.mk0 "a" 0 9) 2).2
          = .error .changed
      ∧ (getLengthOp (singleFile "a" ⟨[1, 2], 5⟩)
          (StreamReader.mk0 "a" 0 3)).2 = .error .changed := by
  refine ⟨by decide, by decide, by decide, by decide, ?_, ?_⟩
  · exact (stale_expectation_fails_changed "a" [1, 2] 5 0 2 9
      (by decide) (by decide)).1
  · exact (stale_expectation_fails_changed "a" [1, 2] 5 0 2 3
      (by decide) (by decide)).2.1

/-- Claim C3: a reader constructed with `expected_mtime` unset (the zero
time) always passes validation: `Read` delivers the clamped slice and
`GetLength` the size, whatever the file's actual modification time is. -/
theorem unset_expectation_always_succeeds (path : String) (content : List Nat)
    (mt : Time) (o len : Nat) :
    (readOp (singleFile path ⟨content, mt⟩) (StreamReader.mk0 path o 0) len).2
        = .ok ((content.drop o).take (min len (content.length - o)))
      ∧ (getLengthOp (singleFile path ⟨content, mt⟩)
          (StreamReader.mk0 path o 0)).2 = .ok content.length := by
  have hval := validateOnce_fresh_match path content mt o 0 (Or.inl rfl)
  have hp : singleFile path ⟨content, mt⟩ path = some ⟨content, mt⟩ := by
    simp [singleFile]
  constructor
  · rw [readOp_eq, hval]
    simp only
    rw [FillFrom_resolves _ _ _ _ _ _ hp]
  · rw [getLengthOp_eq, hval]

/-- Claim C4: `Read(len)` with `len` exceeding the remaining `S - c` bytes
succeeds with exactly `S - c` bytes (never an error, never an over-read):
the effective length is `max(0, min(len, S - c))`; and when that clamp is
`0` — cursor at or past end-of-file — the read completes with `0` bytes
immediately, without contacting the provider (any provider, even one where
the path no longer resolves, gives the same successful empty result). -/
theorem read_clamps_to_remaining_and_eof_skips_provider :
    (∀ (path : String) (content : List Nat) (mt : Time) (c len : Nat),
        c ≤ content.length → content.length - c < len →
        (readOp (singleFile path ⟨content, mt⟩)
            (StreamReader.mk0 path c mt) len).2 = .ok (content.drop c)
          ∧ (content.drop c).length = content.length - c)
      ∧ (∀ (p : Provider) (r : StreamReader) (S : Nat) (mtf : Time) (len : Nat),
          r.validation = some (.ok ⟨S, mtf⟩) → S ≤ r.cursor →
          readOp p r len = (r, .ok [])) := by
  constructor
  · intro path content mt c len hc hlen
    have h := readOp_mk0_slice path content mt c len hc
    have hmin : min len (content.length - c) = content.length - c := by omega
    rw [hmin] at h
    have htake : (content.drop c).take (content.length - c) = content.drop c := by
      apply List.take_of_length_le
      rw [List.length_drop]
    rw [htake] at h
    exact h
  · intro p r S mtf len hv hc
    rw [readOp_eq, validateOnce_of_some p r _ hv]
    have hff : FillFrom p r.path r.cursor len S = .ok [] := by
      unfold FillFrom
      rw [effectiveLength_eq]
      have h0 : min len (S - r.cursor) = 0 := by omega
      simp [h0]
    simp [hff]

/-- Witness for C4: requesting 99 bytes of a 3-byte file at cursor 1 yields
the 2 remaining bytes; a validated reader at end-of-file reads 0 bytes as a
success against a provider that resolves nothing. -/
theorem read_clamps_to_remaining_and_eof_skips_provider_witness :
    (readOp (singleFile "a" ⟨[1, 2, 3], 5⟩) (StreamReader.mk0 "a" 1 5) 99).2
        = .ok [2, 3]
      ∧ readOp (fun _ => none) ⟨"a", 3, 5, some (.ok ⟨3, 5⟩)⟩ 7
        = (⟨"a", 3, 5, some (.ok ⟨3, 5⟩)⟩, .ok []) := by
  constructor
  · exact ((read_clamps_to_remaining_and_eof_skips_provider.1 "a" [1, 2, 3] 5 1 99
      (by decide) (by decide)).1).trans (by rfl)
  · exact read_clamps_to_remaining_and_eof_skips_provider.2 (fun _ => none)
      ⟨"a", 3, 5, some (.ok ⟨3, 5⟩)⟩ 3 5 7 rfl (by decide)

/-- Claim C5: a reader constructed against a path the provider does not
resolve fails both `Read` and `GetLength` with `NotFound`. -/
theorem missing_path_fails_not_found (realpath wrongpath : String) (f : File)
    (o len : Nat) (e : Time) (hw : wrongpath ≠ realpath) :
    (readOp (singleFile realpath f) (StreamReader.mk0 wrongpath o e) len).2
        = .error .notFound
      ∧ (getLengthOp (singleFile realpath f) (StreamReader.mk0 wrongpath o e)).2
        = .error .notFound := by
  have hval : validateOnce (singleFile realpath f)
      (StreamReader.mk0 wrongpath o e)
      = (⟨wrongpath, o, e, some .notFound⟩, .notFound) := by
    rw [validateOnce_of_none _ _ rfl]
    simp [StreamReader.mk0, Validate, GetMetadata, singleFile, hw]
  exact ⟨by rw [readOp_eq, hval], by rw [getLengthOp_eq, hval]⟩

/-- Witness for C5: a provider serving only `"a"` rejects a reader bound to
`"b"` with `NotFound` on both operations. -/
theorem missing_path_fails_not_found_witness :
    ("b" : String) ≠ "a"
      ∧ (readOp (singleFile "a" ⟨[1], 5⟩) (StreamReader.mk0 "b" 0 5) 1).2
          = .error .notFound
      ∧ (getLengthOp (singleFile "a" ⟨[1], 5⟩) (StreamReader.mk0 "b" 0 5)).2
          = .error .notFound := by
  refine ⟨by decide, ?_, ?_⟩
  · exact (missing_path_fails_not_found "a" "b" ⟨[1], 5⟩ 0 1 5 (by decide)).1
  · exact (missing_path_fails_not_found "a" "b" ⟨[1], 5⟩ 0 1 5 (by decide)).2

/-- Claim C6: on a file of size `S` with a matching expectation and initial
offset `0`, issuing `Read(1)` exactly `S` times delivers one byte per call —
the `i`-th call the `i`-th byte — the cursor advancing by 1 each call to
end at `S`, and the concatenation reproducing the full content (the result
list is exactly the content mapped to singleton successes). -/
theorem sequential_unit_reads_reproduce_content
    (path : String) (content : List Nat) (mt : Time) :
    (readSeq (singleFile path ⟨content, mt⟩) 1 content.length
        (StreamReader.mk0 path 0 mt)).2
      = content.map (fun b => .ok [b])
    ∧ (readSeq (singleFile path ⟨content, mt⟩) 1 content.length
        (StreamReader.mk0 path 0 mt)).1.cursor = content.length := by
  cases hS : content.length with
  | zero =>
      have hnil : content = [] := List.length_eq_zero.mp hS
      subst hnil
      simp [readSeq, StreamReader.mk0]
  | succ m =>
      have hval := validateOnce_fresh_match path content mt 0 mt (Or.inr rfl)
      have hre : readOp (singleFile path ⟨content, mt⟩)
            (StreamReader.mk0 path 0 mt) 1
          = readOp (singleFile path ⟨content, mt⟩)
              ⟨path, 0, mt, some (.ok ⟨content.length, mt⟩)⟩ 1 := by
        conv_lhs => rw [← readOp_after_validate]
        rw [hval]
      have hstep : readSeq (singleFile path ⟨content, mt⟩) 1 (m + 1)
            (StreamReader.mk0 path 0 mt)
          = readSeq (singleFile path ⟨content, mt⟩) 1 (m + 1)
              ⟨path, 0, mt, some (.ok ⟨content.length, mt⟩)⟩ := by
        rw [readSeq, readSeq, hre]
      rw [hstep, readSeq_ones path content mt mt (m + 1) 0 (by omega)]
      have htake : (content.drop 0).take (m + 1) = content := by
        rw [List.drop_zero]
        exact List.take_of_length_le (by omega)
      rw [htake]
      exact ⟨rfl, by simp⟩

/-- Claim C7: every accepted `Read` or `GetLength` call — including ones
that will fail validation — returns the immediate `ERR_IO_PENDING`
accepted indicator, and queues exactly one deferred completion (carrying
the operation's result), delivered outside the triggering call stack. -/
theorem calls_accepted_pending_and_single_completion :
    ∀ (p : Provider) (r : StreamReader) (len : Nat),
      (readCall p r len).1 = ERR_IO_PENDING
        ∧ (readCall p r len).2.2.length = 1
        ∧ (readCall p r len).2.2 = [readResultCode (readOp p r len).2]
        ∧ (getLengthCall p r).1 = ERR_IO_PENDING
        ∧ (getLengthCall p r).2.2.length = 1
        ∧ (getLengthCall p r).2.2 = [lengthResultCode (getLengthOp p r).2] := by
  intro p r len
  exact ⟨rfl, rfl, rfl, rfl, rfl, rfl⟩

/-- Claim C8: metadata is fetched at most once per reader — a stored
validation outcome survives every later `Read`/`GetLength` untouched, and
the first operation always leaves one stored — and a `Changed`/`NotFound`
outcome is terminal: each subsequent operation on that reader repeats the
same error without re-checking, even against a provider in which the file
has reappeared or reverted. -/
theorem metadata_fetched_once_and_errors_terminal :
    (∀ (p : Provider) (r : StreamReader) (len : Nat) (v : VOutcome),
        r.validation = some v →
        (readOp p r len).1.validation = some v
          ∧ (getLengthOp p r).1.validation = some v)
      ∧ (∀ (p : Provider) (r : StreamReader) (len : Nat),
          ((readOp p r len).1.validation).isSome
            ∧ ((getLengthOp p r).1.validation).isSome)
      ∧ (∀ (p p' : Provider) (r : StreamReader) (len len' : Nat),
          ((readOp p r len).2 = .error .notFound →
            readOp p' (readOp p r len).1 len'
                = ((readOp p r len).1, .error .notFound)
              ∧ getLengthOp p' (readOp p r len).1
                = ((readOp p r len).1, .error .notFound))
          ∧ ((readOp p r len).2 = .error .changed →
            readOp p' (readOp p r len).1 len'
                = ((readOp p r len).1, .error .changed)
              ∧ getLengthOp p' (readOp p r len).1
                = ((readOp p r len).1, .error .changed))
          ∧ ((getLengthOp p r).2 = .error .notFound →
            readOp p' (getLengthOp p r).1 len'
                = ((getLengthOp p r).1, .error .notFound)
              ∧ getLengthOp p' (getLengthOp p r).1
                = ((getLengthOp p r).1, .error .notFound))
          ∧ ((getLengthOp p r).2 = .error .changed →
            readOp p' (getLengthOp p r).1 len'
                = ((getLengthOp p r).1, .error .changed)
              ∧ getLengthOp p' (getLengthOp p r).1
                = ((getLengthOp p r).1, .error .changed))) := by
  refine ⟨?_, ?_, ?_⟩
  · intro p r len v hv
    have h2 : (validateOnce p r).2 = v := by
      rw [validateOnce_of_some p r v hv]
    rw [readOp_validation, getLengthOp_validation, h2]
    exact ⟨rfl, rfl⟩
  · intro p r len
    rw [readOp_validation, getLengthOp_validation]
    exact ⟨rfl, rfl⟩
  · intro p p' r len len'
    refine ⟨fun h => ?_, fun h => ?_, fun h => ?_, fun h => ?_⟩
    · have hv : (readOp p r len).1.validation = some .notFound := by
        rw [readOp_validation, (readOp_notFound_iff p r len).mp h]
      exact ⟨readOp_of_notFound p' _ len' hv, getLengthOp_of_notFound p' _ hv⟩
    · have hv : (readOp p r len).1.validation = some .changed := by
        rw [readOp_validation, (readOp_changed_iff p r len).mp h]
      exact ⟨readOp_of_changed p' _ len' hv, getLengthOp_of_changed p' _ hv⟩
    · have hv : (getLengthOp p r).1.validation = some .notFound := by
        rw [getLengthOp_validation, (getLengthOp_notFound_iff p r).mp h]
      exact ⟨readOp_of_notFound p' _ len' hv, getLengthOp_of_notFound p' _ hv⟩
    · have hv : (getLengthOp p r).1.validation = some .changed := by
        rw [getLengthOp_validation, (getLengthOp_changed_iff p r).mp h]
      exact ⟨readOp_of_changed p' _ len' hv, getLengthOp_of_changed p' _ hv⟩

/-- Witness for C8: a read against an empty provider fails `NotFound`; the
same reader then repeats `NotFound` even against a provider that now serves
the file; a stored `Changed` outcome likewise survives a later read. -/
theorem metadata_fetched_once_and_errors_terminal_witness :
    readOp (singleFile "a" ⟨[1, 2], 7⟩) ⟨"a", 0, 5, some VOutcome.notFound⟩ 1
        = (⟨"a", 0, 5, some VOutcome.notFound⟩, .error .notFound)
      ∧ (readOp (fun _ => none) ⟨"a", 0, 5, some VOutcome.changed⟩ 1).1.validation
          = some VOutcome.changed := by
  constructor
  · exact ((metadata_fetched_once_and_errors_terminal.2.2 (fun _ => none)
      (singleFile "a" ⟨[1, 2], 7⟩) (StreamReader.mk0 "a" 0 5) 1 1).1 (by rfl)).1
  · exact (metadata_fetched_once_and_errors_terminal.1 (fun _ => none)
      ⟨"a", 0, 5, some VOutcome.changed⟩ 1 VOutcome.changed rfl).1

/-- Claim C9: `GetLength` never moves the cursor; on passed validation it
delivers the validated metadata size — without any chunk read, so even a
provider that can no longer serve the bytes yields the size — and it
modifies no state observable by later `Read` calls: reading after a
`GetLength` gives exactly what reading directly would have. -/
theorem getLength_delivers_size_and_frames_reads :
    (∀ (p : Provider) (r : StreamReader), (getLengthOp p r).1.cursor = r.cursor)
      ∧ (∀ (p : Provider) (r : StreamReader) (meta : FileMetadata),
          (validateOnce p r).2 = .ok meta → (getLengthOp p r).2 = .ok meta.size)
      ∧ (∀ (p' : Provider) (r : StreamReader) (meta : FileMetadata),
          r.validation = some (.ok meta) → getLengthOp p' r = (r, .ok meta.size))
      ∧ (∀ (p : Provider) (r : StreamReader) (len : Nat),
          readOp p (getLengthOp p r).1 len = readOp p r len) := by
  refine ⟨?_, ?_, ?_, ?_⟩
  · intro p r
    rw [getLengthOp_fst, validateOnce_fst]
  · intro p r meta h
    rw [getLengthOp_eq, h]
  · intro p' r meta h
    exact getLengthOp_of_ok p' r meta h
  · intro p r len
    rw [getLengthOp_fst, readOp_after_validate]

/-- Witness for C9: `GetLength` on a fresh matching reader delivers the
2-byte size, and a validated reader delivers its size even against a
provider that resolves nothing. -/
theorem getLength_delivers_size_and_frames_reads_witness :
    (getLengthOp (singleFile "a" ⟨[9, 8], 7⟩) (StreamReader.mk0 "a" 0 0)).2
        = .ok 2
      ∧ getLengthOp (fun _ => none) ⟨"a", 5, 0, some (.ok ⟨2, 7⟩)⟩
        = (⟨"a", 5, 0, some (.ok ⟨2, 7⟩)⟩, .ok 2) := by
  constructor
  · exact getLength_delivers_size_and_frames_reads.2.1
      (singleFile "a" ⟨[9, 8], 7⟩) (StreamReader.mk0 "a" 0 0) ⟨2, 7⟩ (by rfl)
  · exact getLength_delivers_size_and_frames_reads.2.2.1 (fun _ => none)
      ⟨"a", 5, 0, some (.ok ⟨2, 7⟩)⟩ ⟨2, 7⟩ rfl

/-- Claim C10: the callback's single signed integer encodes success and
failure: every successful `Read`/`GetLength` delivers its non-negative byte
count or size, `NotFound` is delivered as `net::ERR_FILE_NOT_FOUND` and
`Changed` as `net::ERR_UPLOAD_FILE_CHANGED`, and the delivered value is
negative exactly when the operation failed. -/
theorem result_code_negative_iff_failure :
    (∀ (p : Provider) (r : StreamReader) (len : Nat),
        (readResultCode (readOp p r len).2 < 0
            ↔ ∃ e, (readOp p r len).2 = .error e)
          ∧ ∀ bytes, (readOp p r len).2 = .ok bytes →
              readResultCode (readOp p r len).2 = bytes.length)
      ∧ (∀ (p : Provider) (r : StreamReader),
          (lengthResultCode (getLengthOp p r).2 < 0
              ↔ ∃ e, (getLengthOp p r).2 = .error e)
            ∧ ∀ n, (getLengthOp p r).2 = .ok n →
                lengthResultCode (getLengthOp p r).2 = n)
      ∧ errorCode .notFound = ERR_FILE_NOT_FOUND
      ∧ errorCode .changed = ERR_UPLOAD_FILE_CHANGED
      ∧ ∀ e : RError, errorCode e < 0 := by
  have hneg : ∀ e : RError, errorCode e < 0 := by
    intro e
    cases e <;>
      simp [errorCode, ERR_FILE_NOT_FOUND, ERR_UPLOAD_FILE_CHANGED, ERR_FAILED]
  refine ⟨?_, ?_, rfl, rfl, hneg⟩
  · intro p r len
    constructor
    · cases h : (readOp p r len).2 with
      | ok bytes => simp [readResultCode]
      | error e =>
          simp only [readResultCode]
          exact ⟨fun _ => ⟨e, rfl⟩, fun _ => hneg e⟩
    · intro bytes h
      rw [h]
      rfl
  · intro p r
    constructor
    · cases h : (getLengthOp p r).2 with
      | ok n => simp [lengthResultCode]
      | error e =>
          simp only [lengthResultCode]
          exact ⟨fun _ => ⟨e, rfl⟩, fun _ => hneg e⟩
    · intro n h
      rw [h]
      rfl

/-- Witness for C10: a successful 2-byte read is delivered as the
non-negative code `2`. -/
theorem result_code_negative_iff_failure_witness :
    readResultCode (readOp (singleFile "a" ⟨[9, 8], 7⟩)
        (StreamReader.mk0 "a" 0 7) 5).2 = 2 := by
  have hok : (readOp (singleFile "a" ⟨[9, 8], 7⟩)
      (StreamReader.mk0 "a" 0 7) 5).2 = .ok [9, 8] :=
    (readOp_mk0_slice "a" [9, 8] 7 0 5 (by decide)).1.trans (by rfl)
  exact (result_code_negative_iff_failure.1 (singleFile "a" ⟨[9, 8], 7⟩)
    (StreamReader.mk0 "a" 0 7) 5).2 [9, 8] hok

end StreamReaderModel
